import Mathlib

/-!
# Verification of the BEAM ICB Localiser rendering core (`src/app.js`)

Shallow embedding of the geometry/chart pipeline of `src/app.js`:

* a small model `JsNum` of JavaScript IEEE-754 numbers as exact values
  extended with `nan` / `inf` / `negInf` (exact arithmetic in place of
  floating point, but with the JavaScript special-value propagation rules
  for the operations the script uses);
* `mercatorProject` (src/app.js lines 120-127) over the reals;
* the bounding-box scan and fitted projection `buildGeoProjection`
  (lines 162-192);
* the path compiler `geomToPath` (lines 194-219) over exact rationals;
* the selection-highlight state update of `renderMap` (lines 274-281);
* the two chart renderers `renderReferralsChart` (lines 285-414) and
  `renderSessionsChart` (lines 417-527), emitting a list of `SvgElem`
  values in the order the script appends SVG nodes.

All functions are total by construction; where the JavaScript source can
only diverge or throw on inputs outside the data model, the modelling
choice is recorded in the doc comment of the definition.
-/

/-- Model of a JavaScript number for this script: an exact value of `α`
(`ℚ` for the chart code, `ℝ` for the projection code) or one of the
IEEE special values `NaN`, `Infinity`, `-Infinity` that the script's
arithmetic can produce.  Negative zero is not distinguished from zero:
in every operation chain of this script the sign of a zero never
changes an observable result (see `jsMul`/`jsDiv` cases). -/
inductive JsNum (α : Type) where
  | num (a : α)
  | nan
  | inf
  | negInf
deriving DecidableEq, Repr

/-- JavaScript `<` (false whenever an operand is `NaN`). -/
def jsLt {α : Type} [LinearOrder α] : JsNum α → JsNum α → Bool
  | .nan, _ => false
  | _, .nan => false
  | .num a, .num b => decide (a < b)
  | .num _, .inf => true
  | .num _, .negInf => false
  | .inf, _ => false
  | .negInf, .negInf => false
  | .negInf, _ => true

/-- JavaScript `<=` (false whenever an operand is `NaN`). -/
def jsLe {α : Type} [LinearOrder α] : JsNum α → JsNum α → Bool
  | .nan, _ => false
  | _, .nan => false
  | .num a, .num b => decide (a ≤ b)
  | .num _, .inf => true
  | .num _, .negInf => false
  | .inf, .inf => true
  | .inf, _ => false
  | .negInf, _ => true

/-- JavaScript addition. -/
def jsAdd {α : Type} [LinearOrderedField α] : JsNum α → JsNum α → JsNum α
  | .nan, _ => .nan
  | _, .nan => .nan
  | .num a, .num b => .num (a + b)
  | .num _, .inf => .inf
  | .num _, .negInf => .negInf
  | .inf, .num _ => .inf
  | .inf, .inf => .inf
  | .inf, .negInf => .nan
  | .negInf, .num _ => .negInf
  | .negInf, .inf => .nan
  | .negInf, .negInf => .negInf

/-- JavaScript unary minus. -/
def jsNeg {α : Type} [LinearOrderedField α] : JsNum α → JsNum α
  | .nan => .nan
  | .num a => .num (-a)
  | .inf => .negInf
  | .negInf => .inf

/-- JavaScript subtraction (`a - b = a + (-b)`, matching IEEE). -/
def jsSub {α : Type} [LinearOrderedField α] (a b : JsNum α) : JsNum α :=
  jsAdd a (jsNeg b)

/-- JavaScript multiplication (`0 * ±Infinity = NaN`). -/
def jsMul {α : Type} [LinearOrderedField α] : JsNum α → JsNum α → JsNum α
  | .nan, _ => .nan
  | _, .nan => .nan
  | .num a, .num b => .num (a * b)
  | .num a, .inf => if 0 < a then .inf else if a < 0 then .negInf else .nan
  | .inf, .num a => if 0 < a then .inf else if a < 0 then .negInf else .nan
  | .num a, .negInf => if 0 < a then .negInf else if a < 0 then .inf else .nan
  | .negInf, .num a => if 0 < a then .negInf else if a < 0 then .inf else .nan
  | .inf, .inf => .inf
  | .inf, .negInf => .negInf
  | .negInf, .inf => .negInf
  | .negInf, .negInf => .inf

/-- JavaScript division.  A nonzero number divided by (positive) zero
gives a signed infinity, `0/0` gives `NaN`; a finite number divided by an
infinity gives zero. -/
def jsDiv {α : Type} [LinearOrderedField α] : JsNum α → JsNum α → JsNum α
  | .nan, _ => .nan
  | _, .nan => .nan
  | .num a, .num b =>
      if b = 0 then (if a = 0 then .nan else if 0 < a then .inf else .negInf)
      else .num (a / b)
  | .num _, .inf => .num 0
  | .num _, .negInf => .num 0
  | .inf, .num b => if 0 ≤ b then .inf else .negInf
  | .inf, .inf => .nan
  | .inf, .negInf => .nan
  | .negInf, .num b => if 0 ≤ b then .negInf else .inf
  | .negInf, .inf => .nan
  | .negInf, .negInf => .nan

/-- JavaScript `Math.min` (NaN-propagating). -/
def jsMin {α : Type} [LinearOrder α] : JsNum α → JsNum α → JsNum α
  | .nan, _ => .nan
  | _, .nan => .nan
  | .num a, .num b => .num (min a b)
  | .negInf, _ => .negInf
  | _, .negInf => .negInf
  | .inf, b => b
  | a, .inf => a

/-- JavaScript `Math.max` of two arguments (NaN-propagating). -/
def jsMax {α : Type} [LinearOrder α] : JsNum α → JsNum α → JsNum α
  | .nan, _ => .nan
  | _, .nan => .nan
  | .num a, .num b => .num (max a b)
  | .inf, _ => .inf
  | _, .inf => .inf
  | .negInf, b => b
  | a, .negInf => a

/-- JavaScript `Math.max(...xs)` over a spread list: fold of `jsMax`
starting from `-Infinity` (`Math.max()` of no arguments). -/
def jsMaxList {α : Type} [LinearOrder α] (l : List (JsNum α)) : JsNum α :=
  l.foldl jsMax .negInf

/-- JavaScript `Math.ceil`. -/
def jsCeil {α : Type} [LinearOrderedField α] [FloorRing α] : JsNum α → JsNum α
  | .nan => .nan
  | .inf => .inf
  | .negInf => .negInf
  | .num a => .num (⌈a⌉ : ℤ)

/-! ## Coordinate Projector and Bounds Fitter (src/app.js lines 120-192) -/

open Real in
/-- `mercatorProject` (src/app.js lines 120-127): degrees in, planar
point out; `x = λ`, `y = log (tan (π/4 + φ/2))` with `λ φ` the inputs
in radians.  A pure function of its arguments. -/
noncomputable def mercatorProject (lon lat : ℝ) : ℝ × ℝ :=
  let lam := lon * π / 180
  let phi := lat * π / 180
  (lam, Real.log (Real.tan (π / 4 + phi / 2)))

/-- A GeoJSON-style geometry value as the script consumes it: `Polygon`
(list of rings), `MultiPolygon` (list of polygons), or any other type.
A ring entry is `Option`al because the script's `ringToPath` explicitly
guards against a missing (`null`) ring; `other` carries the coordinate
leaves that the `forEachCoord` fallback of lines 150-159 would visit for
a geometry of any other type (`geomToPath` emits nothing for it). -/
inductive Geom (α : Type) where
  | polygon (rings : List (Option (List (α × α))))
  | multiPolygon (polys : List (List (Option (List (α × α)))))
  | other (pts : List (α × α))
deriving DecidableEq

/-- The coordinates visited, in order, by `forEachCoord` (src/app.js
lines 129-160) on a possibly-`null` geometry.  A `null` ring inside a
polygon would make the JavaScript `for (const pt of ring)` throw before
any drawing happens; the embedding skips it, so the fitter model below
is faithful for every collection whose rings are all present. -/
def forEachCoordList {α : Type} : Option (Geom α) → List (α × α)
  | none => []
  | some (.polygon rings) => rings.flatMap (fun r => r.getD [])
  | some (.multiPolygon polys) =>
      polys.flatMap (fun poly => poly.flatMap (fun r => r.getD []))
  | some (.other pts) => pts

/-- The four running bounds of the scan in `buildGeoProjection`
(src/app.js lines 163-173), as JavaScript numbers. -/
structure ScanBounds where
  minX : JsNum ℝ
  maxX : JsNum ℝ
  minY : JsNum ℝ
  maxY : JsNum ℝ

/-- One step of the scan: project the geographic point and update the
four bounds with the `<` / `>` comparisons of lines 168-171. -/
noncomputable def scanStep (st : ScanBounds) (pt : ℝ × ℝ) : ScanBounds :=
  let q := mercatorProject pt.1 pt.2
  { minX := if jsLt (.num q.1) st.minX then .num q.1 else st.minX
    maxX := if jsLt st.maxX (.num q.1) then .num q.1 else st.maxX
    minY := if jsLt (.num q.2) st.minY then .num q.2 else st.minY
    maxY := if jsLt st.maxY (.num q.2) then .num q.2 else st.maxY }

/-- The scan of every coordinate of every feature, started from the
sentinels `minX = minY = Infinity`, `maxX = maxY = -Infinity`
(src/app.js line 163). -/
noncomputable def projBounds (geo : List (Option (Geom ℝ))) : ScanBounds :=
  (geo.flatMap forEachCoordList).foldl scanStep
    { minX := .inf, maxX := .negInf, minY := .inf, maxY := .negInf }

/-- `dx = maxX - minX` (src/app.js line 175). -/
noncomputable def dxOf (geo : List (Option (Geom ℝ))) : JsNum ℝ :=
  jsSub (projBounds geo).maxX (projBounds geo).minX

/-- `dy = maxY - minY` (src/app.js line 176). -/
noncomputable def dyOf (geo : List (Option (Geom ℝ))) : JsNum ℝ :=
  jsSub (projBounds geo).maxY (projBounds geo).minY

/-- `scale = pad * Math.min(W/dx, H/dy)` with `pad = 0.96`
(src/app.js lines 177-178). -/
noncomputable def scaleOf (geo : List (Option (Geom ℝ))) (W H : ℝ) : JsNum ℝ :=
  jsMul (.num 0.96) (jsMin (jsDiv (.num W) (dxOf geo)) (jsDiv (.num H) (dyOf geo)))

/-- `tx = (W - dx*scale)/2 - minX*scale` (src/app.js lines 179-181). -/
noncomputable def txOf (geo : List (Option (Geom ℝ))) (W H : ℝ) : JsNum ℝ :=
  jsSub (jsDiv (jsSub (.num W) (jsMul (dxOf geo) (scaleOf geo W H))) (.num 2))
    (jsMul (projBounds geo).minX (scaleOf geo W H))

/-- `ty = (H - dy*scale)/2 + maxY*scale` (src/app.js lines 180-182). -/
noncomputable def tyOf (geo : List (Option (Geom ℝ))) (W H : ℝ) : JsNum ℝ :=
  jsAdd (jsDiv (jsSub (.num H) (jsMul (dyOf geo) (scaleOf geo W H))) (.num 2))
    (jsMul (projBounds geo).maxY (scaleOf geo W H))

/-- The composed projection returned by `buildGeoProjection`
(src/app.js lines 184-191): `px = x*scale + tx`, `py = (-y)*scale + ty`. -/
noncomputable def buildGeoProjection (geo : List (Option (Geom ℝ))) (W H : ℝ)
    (pt : ℝ × ℝ) : JsNum ℝ × JsNum ℝ :=
  let q := mercatorProject pt.1 pt.2
  (jsAdd (jsMul (.num q.1) (scaleOf geo W H)) (txOf geo W H),
   jsAdd (jsMul (jsNeg (.num q.2)) (scaleOf geo W H)) (tyOf geo W H))

/-! ## Geometry-to-Path Compiler (src/app.js lines 194-219) -/

/-- Exactly two decimal digits, zero-padded on the left, for the
fractional part `d < 100` produced by `toFixed2`. -/
def twoDigits (d : ℕ) : String :=
  (if d < 10 then "0" else "") ++ Nat.repr d

/-- JavaScript `x.toFixed(2)` on an exact value: sign is taken first
(ECMA-262), then the magnitude is rounded to the integer `n` of
hundredths nearest to `|x| * 100`, ties toward the larger `n`, and
printed as `intPart.dd`. -/
def toFixed2 (q : ℚ) : String :=
  (if q < 0 then "-" else "") ++
    (let n : ℕ := (⌊|q| * 100 + 1/2⌋).toNat
     Nat.repr (n / 100) ++ "." ++ twoDigits (n % 100))

/-- JavaScript `x.toFixed(1)`, used for the session-chart tick labels. -/
def toFixed1 (q : ℚ) : String :=
  (if q < 0 then "-" else "") ++
    (let n : ℕ := (⌊|q| * 10 + 1/2⌋).toNat
     Nat.repr (n / 10) ++ "." ++ Nat.repr (n % 10))

/-- `toFixed(2)` lifted to JavaScript numbers (`String(NaN)` is `"NaN"`,
infinities print as `"Infinity"` / `"-Infinity"`). -/
def jsToFixed2 : JsNum ℚ → String
  | .num q => toFixed2 q
  | .nan => "NaN"
  | .inf => "Infinity"
  | .negInf => "-Infinity"

/-- The `'M x y'` / `'L x y'` coordinate payload for one projected
point: both coordinates through `toFixed(2)` separated by a space
(src/app.js line 205). -/
def coordStr (project : ℚ × ℚ → ℚ × ℚ) (p : ℚ × ℚ) : String :=
  toFixed2 (project p).1 ++ " " ++ toFixed2 (project p).2

/-- `ringToPath` (src/app.js lines 199-208): empty string for a missing
or empty ring, else a move-to for index 0, line-tos after, then `'Z'`.
The string is assembled exactly as the `d +=` loop does: the
concatenation, in index order, of one command per point. -/
def ringToPath (project : ℚ × ℚ → ℚ × ℚ) : Option (List (ℚ × ℚ)) → String
  | none => ""
  | some ring =>
      if ring.length = 0 then ""
      else
        String.join (ring.enum.map
          (fun ip => (if ip.1 = 0 then "M" else "L") ++ coordStr project ip.2)) ++ "Z"

/-- `geomToPath` (src/app.js lines 194-219): `''` for a null geometry,
rings joined with `''` for a polygon, polygons of joined rings joined
with `''` for a multi-polygon, `''` for any other geometry type. -/
def geomToPath (geom : Option (Geom ℚ)) (project : ℚ × ℚ → ℚ × ℚ) : String :=
  match geom with
  | none => ""
  | some (.polygon rings) => String.join (rings.map (ringToPath project))
  | some (.multiPolygon polys) =>
      String.join (polys.map (fun poly => String.join (poly.map (ringToPath project))))
  | some (.other _) => ""

/-! ## SVG output model and chart renderers (src/app.js lines 285-527) -/

/-- One SVG element as the chart code appends it, keeping the fields the
script sets that distinguish elements (geometry, fill/stroke, text
content).  Coordinates are JavaScript numbers. -/
inductive SvgElem where
  | line (x1 x2 y1 y2 : JsNum ℚ) (stroke : String) (strokeWidth : ℚ)
  | text (x y : JsNum ℚ) (anchor fill content : String)
  | rect (x y w h : JsNum ℚ) (fill : String)
  | path (d : String) (fill stroke : String)
  | circle (cx cy r : JsNum ℚ) (fill : String)
deriving DecidableEq

/-- Number of iterations of the gridline loop
`for (let t = start; t <= bound; t += step)` with a positive rational
`step`: the ticks are `start + k*step` (exact arithmetic, so no float
drift), giving `⌊(bound - start)/step⌋ + 1` iterations when the bound is
a number at least `start`, none otherwise.  A `NaN` or `-Infinity` bound
runs zero iterations exactly as in JavaScript; a `+Infinity` bound would
make the JavaScript loop diverge and never happens for the bounds this
script computes on chart data, so it is mapped to zero iterations. -/
def tickCount (bound : JsNum ℚ) (start step : ℚ) : ℕ :=
  match bound with
  | .num b => (⌊(b - start) / step⌋ + 1).toNat
  | _ => 0

/-- Drop the trailing characters of `s` satisfying `p` (the effect of a
`replace(/c+$/,'')` on its end-anchored character class). -/
def dropTrailing (p : Char → Bool) (s : String) : String :=
  String.mk (s.data.reverse.dropWhile p).reverse

/-- The referrals-chart y-tick label (src/app.js line 331): integers
print as `String(Math.round(t))`, other ticks as `toFixed(2)` with
trailing zeros then a trailing dot stripped. -/
def chartTickLabel (t : ℚ) : String :=
  if t.den = 1 then toString t.num
  else
    let s := dropTrailing (fun c => c = '0') (toFixed2 t)
    if s.endsWith "." then s.dropRight 1 else s

/-- The sessions-chart y-tick label (src/app.js line 461): integers as
`String(Math.round(t))`, other ticks as `toFixed(1)`. -/
def sessionsTickLabel (t : ℚ) : String :=
  if t.den = 1 then toString t.num else toFixed1 t

/-- `dataM` (src/app.js lines 296-300): both series values scaled to
millions.  A period with a missing (`undefined`) value enters the model
as `nan`, since `undefined / 1e6` is `NaN` in JavaScript. -/
def referralsDataM (series : List (String × JsNum ℚ × JsNum ℚ)) :
    List (String × JsNum ℚ × JsNum ℚ) :=
  series.map (fun d => (d.1, jsDiv d.2.1 (.num 1000000), jsDiv d.2.2 (.num 1000000)))

/-- `maxVal` (src/app.js line 302): `Math.max` over referrals, accessed
and `0` for every period (`-Infinity` for an empty series). -/
def referralsMaxVal (series : List (String × JsNum ℚ × JsNum ℚ)) : JsNum ℚ :=
  jsMaxList ((referralsDataM series).flatMap (fun d => [d.2.1, d.2.2, .num 0]))

/-- `step` (src/app.js line 304): the gridline step picked from
`0.05 / 0.1 / 0.2 / 0.5` by thresholds `0.2 / 0.5 / 1.0` on `maxVal`. -/
def referralsStep (series : List (String × JsNum ℚ × JsNum ℚ)) : ℚ :=
  if jsLe (referralsMaxVal series) (.num (1/5)) then 1/20
  else if jsLe (referralsMaxVal series) (.num (1/2)) then 1/10
  else if jsLe (referralsMaxVal series) (.num 1) then 1/5
  else 1/2

/-- `yMax` (src/app.js line 305):
`Math.max(step, Math.ceil((maxVal * 1.12) / step) * step)`. -/
def referralsYMax (series : List (String × JsNum ℚ × JsNum ℚ)) : JsNum ℚ :=
  jsMax (.num (referralsStep series))
    (jsMul (jsCeil (jsDiv (jsMul (referralsMaxVal series) (.num (28/25)))
        (.num (referralsStep series))))
      (.num (referralsStep series)))

/-- `yScale` (src/app.js line 307): `margin.top + (1 - v/yMax) * innerH`
with `margin.top = 70`, `innerH = 540`. -/
def referralsYScale (series : List (String × JsNum ℚ × JsNum ℚ)) (v : JsNum ℚ) :
    JsNum ℚ :=
  jsAdd (.num 70) (jsMul (jsSub (.num 1) (jsDiv v (referralsYMax series))) (.num 540))

/-- `y0 = yScale(0)` (src/app.js line 310). -/
def referralsY0 (series : List (String × JsNum ℚ × JsNum ℚ)) : JsNum ℚ :=
  referralsYScale series (.num 0)

/-- The gridline/label pairs of src/app.js lines 313-332, in loop order. -/
def referralsGrid (series : List (String × JsNum ℚ × JsNum ℚ)) : List SvgElem :=
  (List.range (tickCount (jsAdd (referralsYMax series) (.num (1/1000000000))) 0
      (referralsStep series))).flatMap
    (fun k =>
      let t : ℚ := k * referralsStep series
      let y := referralsYScale series (.num t)
      [.line (.num 80) (.num 970) y y "#d1d5db" 1,
       .text (.num 70) (jsAdd y (.num 5)) "end" "#d1d5db" (chartTickLabel t)])

/-- The two axis lines of src/app.js lines 335-350. -/
def referralsAxes (series : List (String × JsNum ℚ × JsNum ℚ)) : List SvgElem :=
  [.line (.num 80) (.num 80) (.num 70) (referralsY0 series) "#6b7280" (3/2),
   .line (.num 80) (.num 970) (referralsY0 series) (referralsY0 series) "#6b7280" (3/2)]

/-- The legend swatches and captions of src/app.js lines 353-369
(`legendY = 30`, `legendX = 340`). -/
def referralsLegend : List SvgElem :=
  [.rect (.num 340) (.num 20) (.num 14) (.num 14) "#D1D5DB",
   .text (.num 360) (.num 32) "start" "#d1d5db" "Referrals (m)",
   .rect (.num 510) (.num 20) (.num 14) (.num 14) "#141B8C",
   .text (.num 530) (.num 32) "start" "#d1d5db" "Accessed services (m)"]

/-- `xBand = innerW / dataM.length` (src/app.js line 308); `Infinity`
for an empty series (division by zero), exactly as in JavaScript, and
then never used because the bar loop body does not run. -/
def referralsXBand (series : List (String × JsNum ℚ × JsNum ℚ)) : JsNum ℚ :=
  jsDiv (.num 890) (.num ((referralsDataM series).length : ℚ))

/-- The per-period group of the bar loop (src/app.js lines 372-411):
two rects (referrals grey, accessed brand blue) with
`height = Math.max(0, y0 - yScale(value))`, then the period label. -/
def referralsBars (series : List (String × JsNum ℚ × JsNum ℚ)) : List SvgElem :=
  (referralsDataM series).enum.flatMap (fun id =>
    let xBand := referralsXBand series
    let groupX := jsAdd (.num 80) (jsMul (.num (id.1 : ℚ)) xBand)
    let barTotal := jsMul xBand (.num (31/50))
    let barGap := jsMul barTotal (.num (1/10))
    let barW := jsDiv (jsSub barTotal barGap) (.num 2)
    let xRef := jsAdd groupX (jsDiv (jsSub xBand barTotal) (.num 2))
    let xAcc := jsAdd (jsAdd xRef barW) barGap
    let yRef := referralsYScale series id.2.2.1
    let yAcc := referralsYScale series id.2.2.2
    [.rect xRef yRef barW (jsMax (.num 0) (jsSub (referralsY0 series) yRef)) "#D1D5DB",
     .rect xAcc yAcc barW (jsMax (.num 0) (jsSub (referralsY0 series) yAcc)) "#141B8C",
     .text (jsAdd groupX (jsDiv xBand (.num 2))) (jsAdd (referralsY0 series) (.num 46))
       "middle" "#d1d5db" id.2.1])

/-- `renderReferralsChart` (src/app.js lines 285-414): the SVG children
in append order — gridlines and tick labels, axes, legend, bars. -/
def renderReferralsChart (series : List (String × JsNum ℚ × JsNum ℚ)) : List SvgElem :=
  referralsGrid series ++ referralsAxes series ++ referralsLegend ++ referralsBars series

/-- `yScale` of the sessions chart (src/app.js line 438):
`margin.top + (1 - (v - yMin)/(yMax - yMin)) * innerH` with
`margin.top = 40`, `yMin = 7.6`, `yMax = 8.5`, `innerH = 570`. -/
def sessionsYScale (v : JsNum ℚ) : JsNum ℚ :=
  jsAdd (.num 40) (jsMul (jsSub (.num 1) (jsDiv (jsSub v (.num (38/5))) (.num (9/10))))
    (.num 570))

/-- `y0 = yScale(yMin)` (src/app.js line 465), the sessions baseline. -/
def sessionsY0 : JsNum ℚ := sessionsYScale (.num (38/5))

/-- Sessions gridlines and tick labels (src/app.js lines 443-462),
from `t = 7.6` to `8.5` in steps of `0.1`. -/
def sessionsGrid : List SvgElem :=
  (List.range (tickCount (.num (17/2 + 1/1000000000)) (38/5) (1/10))).flatMap
    (fun k =>
      let t : ℚ := 38/5 + k * (1/10)
      let y := sessionsYScale (.num t)
      [.line (.num 80) (.num 970) y y "#d1d5db" 1,
       .text (.num 70) (jsAdd y (.num 5)) "end" "#d1d5db" (sessionsTickLabel t)])

/-- The two sessions axis lines (src/app.js lines 466-481). -/
def sessionsAxes : List SvgElem :=
  [.line (.num 80) (.num 80) (.num 40) sessionsY0 "#6b7280" (3/2),
   .line (.num 80) (.num 970) sessionsY0 sessionsY0 "#6b7280" (3/2)]

/-- `xStep = innerW / Math.max(1, data.length - 1)` (src/app.js
line 439), with the JavaScript `length - 1` computed in `ℤ`. -/
def sessionsXStep (series : List (String × JsNum ℚ)) : JsNum ℚ :=
  jsDiv (.num 890) (.num ((max 1 ((series.length : ℤ) - 1) : ℤ) : ℚ))

/-- `xScale(i) = margin.left + i * xStep` (src/app.js line 440). -/
def sessionsXScale (series : List (String × JsNum ℚ)) (i : ℕ) : JsNum ℚ :=
  jsAdd (.num 80) (jsMul (.num (i : ℚ)) (sessionsXStep series))

/-- The x labels of src/app.js lines 484-494, one text per period. -/
def sessionsLabels (series : List (String × JsNum ℚ)) : List SvgElem :=
  series.enum.map (fun id =>
    .text (sessionsXScale series id.1) (jsAdd sessionsY0 (.num 46)) "middle" "#d1d5db"
      id.2.1)

/-- The polyline data string of src/app.js lines 498-503: `M`/`L`
commands with both coordinates through `toFixed(2)`. -/
def sessionsPathD (series : List (String × JsNum ℚ)) : String :=
  String.join (series.enum.map (fun id =>
    (if id.1 = 0 then "M" else "L") ++ jsToFixed2 (sessionsXScale series id.1) ++ " "
      ++ jsToFixed2 (sessionsYScale id.2.2)))

/-- The data marks of src/app.js lines 497-524: nothing for an empty
series, else the connected path then one circle marker per point. -/
def sessionsMarks (series : List (String × JsNum ℚ)) : List SvgElem :=
  if series.length = 0 then []
  else
    .path (sessionsPathD series) "none" "#141B8C" ::
      series.enum.map (fun id =>
        .circle (sessionsXScale series id.1) (sessionsYScale id.2.2) (.num 7) "#141B8C")

/-- `renderSessionsChart` (src/app.js lines 417-527): opaque background
rect, gridlines and tick labels, axes, x labels, then line and markers. -/
def renderSessionsChart (series : List (String × JsNum ℚ)) : List SvgElem :=
  SvgElem.rect (.num 0) (.num 0) (.num 1000) (.num 680) "#fafbfd" ::
    (sessionsGrid ++ sessionsAxes ++ sessionsLabels series ++ sessionsMarks series)

/-! ## Region Map Renderer selection state (src/app.js lines 221-282) -/

/-- `BRAND_BLUE` (src/app.js line 15), the highlight fill. -/
def BRAND_BLUE : String := "#141B8C"

/-- The default region fill `'#c7cdd9'` (src/app.js lines 241 and 277). -/
def mapDefaultFill : String := "#c7cdd9"

/-- One `Map.set` step building `pathsByCd` (src/app.js lines 235 and
266): only a truthy `cd` (present and nonempty) is keyed; re-inserting
an existing key keeps its position. -/
def insertKey (ks : List String) (cd : Option String) : List String :=
  match cd with
  | none => ks
  | some s => if s = "" then ks else if s ∈ ks then ks else ks ++ [s]

/-- The keys of `pathsByCd` after `renderMap` builds one shape per
feature, in feature order. -/
def mapKeys (cds : List (Option String)) : List String :=
  cds.foldl insertKey []

/-- The style state `renderMap` leaves on the keyed shapes: default fill
and no `opacity` attribute yet (an unset SVG opacity renders as 1). -/
def initMapStyles (cds : List (Option String)) : List (String × String × Option String) :=
  (mapKeys cds).map (fun k => (k, mapDefaultFill, none))

/-- `setSelected` (src/app.js lines 275-281): every keyed shape gets
`fill = k === cd ? BRAND_BLUE : '#c7cdd9'` and
`opacity = k === cd ? '1' : '0.95'`.  Shapes without a region identity
are not in `pathsByCd` and are untouched. -/
def setSelected (cd : String) (st : List (String × String × Option String)) :
    List (String × String × Option String) :=
  st.map (fun e =>
    (e.1, (if e.1 = cd then BRAND_BLUE else mapDefaultFill),
      some (if e.1 = cd then "1" else "0.95")))

/-! ## Observation helpers used only in the statements below -/

/-- Whether a JavaScript number is an ordinary (finite) number. -/
def JsNum.isFinite {α : Type} : JsNum α → Bool
  | .num _ => true
  | _ => false

/-- Every value of every period of a referrals series is a finite
number (the data-model invariant for numeric series). -/
def finiteVals (series : List (String × JsNum ℚ × JsNum ℚ)) : Prop :=
  ∀ d ∈ series, d.2.1.isFinite = true ∧ d.2.2.isFinite = true

/-- Recogniser for `line` elements. -/
def isLineElem : SvgElem → Bool
  | .line _ _ _ _ _ _ => true
  | _ => false

/-- Recogniser for gridlines (the light grey stroke `'#d1d5db'`). -/
def isGridLine : SvgElem → Bool
  | .line _ _ _ _ s _ => s = "#d1d5db"
  | _ => false

/-- Recogniser for axis lines (the dark grey stroke `'#6b7280'`). -/
def isAxisLine : SvgElem → Bool
  | .line _ _ _ _ s _ => s = "#6b7280"
  | _ => false

/-- Recogniser for `rect` elements. -/
def isRectElem : SvgElem → Bool
  | .rect _ _ _ _ _ => true
  | _ => false

/-- Recogniser for `path` elements. -/
def isPathElem : SvgElem → Bool
  | .path _ _ _ => true
  | _ => false

/-- Recogniser for `circle` elements. -/
def isCircleElem : SvgElem → Bool
  | .circle _ _ _ _ => true
  | _ => false

/-- Recogniser for a rect drawn with height exactly `0`. -/
def isZeroHeightRect : SvgElem → Bool
  | .rect _ _ _ h _ => h = JsNum.num 0
  | _ => false

/-! ## C3 — the Coordinate Projector -/

/-- C3: for every (longitude, latitude) pair in degrees with latitude
strictly inside (-90, 90), `mercatorProject` returns exactly
`(lon·π/180, ln(tan(π/4 + (lat·π/180)/2)))`, and on that domain the
tangent is strictly positive, so the logarithm is a genuine finite real
(purity and absence of side effects hold by construction: the embedding
is a function of its two arguments only). -/
theorem mercatorProject_formula_finite (lon lat : ℝ) (h1 : -90 < lat) (h2 : lat < 90) :
    mercatorProject lon lat =
      (lon * Real.pi / 180,
        Real.log (Real.tan (Real.pi / 4 + lat * Real.pi / 180 / 2))) ∧
    0 < Real.tan (Real.pi / 4 + lat * Real.pi / 180 / 2) := by
  have hpi := Real.pi_pos
  refine ⟨rfl, Real.tan_pos_of_pos_of_lt_pi_div_two ?_ ?_⟩
  · nlinarith
  · nlinarith

/-- Witness for C3 at `(lon, lat) = (30, 45)`. -/
theorem mercatorProject_formula_finite_witness :
    ((-90 : ℝ) < 45 ∧ (45 : ℝ) < 90) ∧
      (mercatorProject 30 45 =
        (30 * Real.pi / 180,
          Real.log (Real.tan (Real.pi / 4 + 45 * Real.pi / 180 / 2))) ∧
      0 < Real.tan (Real.pi / 4 + 45 * Real.pi / 180 / 2)) :=
  ⟨⟨by norm_num, by norm_num⟩,
    mercatorProject_formula_finite 30 45 (by norm_num) (by norm_num)⟩

/-! ## C6 and C10 — the Geometry-to-Path Compiler -/

/-- Folding string concatenation from an accumulator prepends it. -/
theorem strFoldlAppend (l : List String) (a : String) :
    l.foldl (fun r s => r ++ s) a = a ++ l.foldl (fun r s => r ++ s) "" := by
  induction l generalizing a with
  | nil => simp
  | cons x xs ih =>
      simp only [List.foldl_cons]
      rw [ih (a ++ x), ih ("" ++ x), String.empty_append, String.append_assoc]

/-- `String.join` peels its head as a concatenation. -/
theorem strJoinCons (a : String) (l : List String) :
    String.join (a :: l) = a ++ String.join l := by
  simp only [String.join, List.foldl_cons, String.empty_append]
  exact strFoldlAppend l a

/-- Every entry of an enumeration starting at a positive index gets the
`'L'` command in the ring loop. -/
theorem enumFromMapLineTo (project : ℚ × ℚ → ℚ × ℚ) (rest : List (ℚ × ℚ)) (n : ℕ)
    (hn : n ≠ 0) :
    (List.enumFrom n rest).map
        (fun ip => (if ip.1 = 0 then "M" else "L") ++ coordStr project ip.2) =
      rest.map (fun p => "L" ++ coordStr project p) := by
  induction rest generalizing n with
  | nil => rfl
  | cons p ps ih =>
      simp only [List.enumFrom, List.map_cons, if_neg hn]
      rw [ih (n + 1) (Nat.succ_ne_zero n)]

/-- `twoDigits` of a two-digit number is two digit characters. -/
theorem twoDigitsSpec : ∀ d : ℕ, d < 100 →
    (twoDigits d).length = 2 ∧ (twoDigits d).data.all Char.isDigit = true := by
  decide

/-- C6: the path compiler emits, per ring, a move-to the first projected
point, a line-to each later projected point, and a close-path `'Z'`; a
multi-polygon compiles to the concatenation of its polygons' compiled
rings in order; and every emitted coordinate is printed by `toFixed(2)`,
which always ends in a dot followed by exactly two digit characters. -/
theorem geomToPath_ring_structure :
    (∀ (project : ℚ × ℚ → ℚ × ℚ) (p0 : ℚ × ℚ) (rest : List (ℚ × ℚ)),
      ringToPath project (some (p0 :: rest)) =
        "M" ++ coordStr project p0 ++
          String.join (rest.map (fun p => "L" ++ coordStr project p)) ++ "Z") ∧
    (∀ (project : ℚ × ℚ → ℚ × ℚ) (polys : List (List (Option (List (ℚ × ℚ))))),
      geomToPath (some (Geom.multiPolygon polys)) project =
        String.join (polys.map (fun poly =>
          geomToPath (some (Geom.polygon poly)) project))) ∧
    (∀ q : ℚ, ∃ s t : String, toFixed2 q = s ++ "." ++ t ∧ t.length = 2 ∧
      t.data.all Char.isDigit = true) := by
  refine ⟨fun project p0 rest => ?_, fun project polys => ?_, fun q => ?_⟩
  · show (if (p0 :: rest).length = 0 then ""
      else String.join (((p0 :: rest).enum).map
        (fun ip => (if ip.1 = 0 then "M" else "L") ++ coordStr project ip.2)) ++ "Z") = _
    rw [if_neg (by simp)]
    have henum : (p0 :: rest).enum =
        (0, p0) :: List.enumFrom 1 rest := rfl
    rw [henum, List.map_cons, strJoinCons, enumFromMapLineTo project rest 1 one_ne_zero]
    simp [String.append_assoc]
  · show String.join (polys.map (fun poly =>
        String.join (poly.map (ringToPath project)))) = _
    rfl
  · refine ⟨(if q < 0 then "-" else "") ++ Nat.repr ((⌊|q| * 100 + 1/2⌋).toNat / 100),
      twoDigits ((⌊|q| * 100 + 1/2⌋).toNat % 100), ?_, ?_, ?_⟩
    · show (if q < 0 then "-" else "") ++
        (Nat.repr ((⌊|q| * 100 + 1/2⌋).toNat / 100) ++ "." ++
          twoDigits ((⌊|q| * 100 + 1/2⌋).toNat % 100)) = _
      simp [String.append_assoc]
    · exact (twoDigitsSpec _ (Nat.mod_lt _ (by norm_num))).1
    · exact (twoDigitsSpec _ (Nat.mod_lt _ (by norm_num))).2

/-- C10: `geomToPath` is total by construction and returns the empty
path for a null geometry, for any geometry type other than Polygon and
MultiPolygon, and for a missing or empty ring; a missing ring
contributes nothing to a polygon's path. -/
theorem geomToPath_null_and_empty :
    (∀ project, geomToPath none project = "") ∧
    (∀ project pts, geomToPath (some (Geom.other pts)) project = "") ∧
    (∀ project, ringToPath project none = "") ∧
    (∀ project, ringToPath project (some []) = "") ∧
    (∀ project rings, geomToPath (some (Geom.polygon (none :: rings))) project =
      geomToPath (some (Geom.polygon rings)) project) := by
  refine ⟨fun _ => rfl, fun _ _ => rfl, fun _ => rfl, fun _ => rfl,
    fun project rings => ?_⟩
  show String.join (ringToPath project none :: rings.map (ringToPath project)) = _
  rw [strJoinCons]
  simp [ringToPath, geomToPath]

/-! ## C5 — selection highlight of the Region Map Renderer -/

/-- A `Map.set` step keeps the key list duplicate-free. -/
theorem insertKeyNodup (ks : List String) (cd : Option String) (h : ks.Nodup) :
    (insertKey ks cd).Nodup := by
  cases cd with
  | none => exact h
  | some s =>
      by_cases hs : s = ""
      · simpa [insertKey, hs] using h
      · by_cases hm : s ∈ ks
        · simpa [insertKey, hs, hm] using h
        · simp [insertKey, hs, hm, List.nodup_append, h]

/-- The keys of `pathsByCd` are duplicate-free. -/
theorem mapKeysNodup (cds : List (Option String)) : (mapKeys cds).Nodup := by
  have general : ∀ (l : List (Option String)) (ks : List String), ks.Nodup →
      (l.foldl insertKey ks).Nodup := by
    intro l
    induction l with
    | nil => exact fun ks h => h
    | cons c cs ih => exact fun ks h => ih (insertKey ks c) (insertKeyNodup ks c h)
  exact general cds [] List.nodup_nil

/-- C5: after `setSelected cd`, every keyed shape whose identity equals
`cd` carries the highlight fill at opacity 1 and every other keyed shape
carries the default fill at opacity 0.95; `setSelected` is idempotent;
when `cd` is a key, exactly one shape is highlighted; when `cd` matches
no key, no shape is highlighted.  (`renderMap` puts exactly the shapes
with a truthy region identity into `pathsByCd`; shapes without one are
never restyled.) -/
theorem setSelected_highlight_spec (cds : List (Option String)) (cd : String) :
    (∀ e ∈ setSelected cd (initMapStyles cds),
      e.2 = ((if e.1 = cd then BRAND_BLUE else mapDefaultFill),
        some (if e.1 = cd then "1" else "0.95"))) ∧
    setSelected cd (setSelected cd (initMapStyles cds)) =
      setSelected cd (initMapStyles cds) ∧
    (cd ∈ mapKeys cds →
      ((setSelected cd (initMapStyles cds)).filter
        (fun e => e.2.1 = BRAND_BLUE)).length = 1) ∧
    (cd ∉ mapKeys cds →
      ∀ e ∈ setSelected cd (initMapStyles cds),
        e.2 = (mapDefaultFill, some "0.95")) := by
  refine ⟨?_, ?_, ?_, ?_⟩
  · intro e he
    simp only [setSelected, List.mem_map] at he
    obtain ⟨x, _, rfl⟩ := he
    rfl
  · simp only [setSelected, List.map_map]
    rfl
  · intro hmem
    have hrw : setSelected cd (initMapStyles cds) =
        (mapKeys cds).map (fun k => (k, (if k = cd then BRAND_BLUE else mapDefaultFill),
          some (if k = cd then "1" else "0.95"))) := by
      simp only [setSelected, initMapStyles, List.map_map]
      rfl
    rw [hrw]
    have hcount : ∀ (ks : List String),
        ((ks.map (fun k => (k, (if k = cd then BRAND_BLUE else mapDefaultFill),
            some (if k = cd then "1" else "0.95")))).filter
          (fun e => e.2.1 = BRAND_BLUE)).length = ks.count cd := by
      intro ks
      induction ks with
      | nil => rfl
      | cons k ks ih =>
          by_cases hk : k = cd
          · simp [List.filter_cons, hk, List.count_cons, ih]
          · simp [List.filter_cons, hk, List.count_cons, ih,
              show ¬(mapDefaultFill = BRAND_BLUE) by decide]
    rw [hcount (mapKeys cds)]
    exact List.count_eq_one_of_mem (mapKeysNodup cds) hmem
  · intro hmem e he
    simp only [setSelected, initMapStyles, List.mem_map] at he
    obtain ⟨x, ⟨k, hk, rfl⟩, rfl⟩ := he
    have : ¬(k = cd) := fun h => hmem (h ▸ hk)
    simp [this]

/-- Witness for C5 on the two-region collection `[some "A", some "B"]`,
selecting the known key `"A"` and the unknown key `"Z"`. -/
theorem setSelected_highlight_spec_witness :
    ("A" ∈ mapKeys [some "A", some "B"]) ∧
    ((setSelected "A" (initMapStyles [some "A", some "B"])).filter
      (fun e => e.2.1 = BRAND_BLUE)).length = 1 ∧
    setSelected "A" (setSelected "A" (initMapStyles [some "A", some "B"])) =
      setSelected "A" (initMapStyles [some "A", some "B"]) ∧
    ("Z" ∉ mapKeys [some "A", some "B"]) ∧
    (∀ e ∈ setSelected "Z" (initMapStyles [some "A", some "B"]),
      e.2 = (mapDefaultFill, some "0.95")) :=
  ⟨by decide,
    (setSelected_highlight_spec [some "A", some "B"] "A").2.2.1 (by decide),
    (setSelected_highlight_spec [some "A", some "B"] "A").2.1,
    by decide,
    (setSelected_highlight_spec [some "A", some "B"] "Z").2.2.2 (by decide)⟩

/-! ## C4 — grouped-bar axis step and maximum -/

/-- Folding `jsMax` from a finite number over finite numbers yields a
finite number bounding the accumulator and every element. -/
theorem jsMaxFoldNum (l : List (JsNum ℚ)) (m : ℚ)
    (hfin : ∀ x ∈ l, x.isFinite = true) :
    ∃ M : ℚ, l.foldl jsMax (JsNum.num m) = JsNum.num M ∧ m ≤ M ∧
      ∀ q : ℚ, JsNum.num q ∈ l → q ≤ M := by
  induction l generalizing m with
  | nil => exact ⟨m, rfl, le_refl m, by simp⟩
  | cons x xs ih =>
      obtain ⟨q0, rfl⟩ : ∃ q0, x = JsNum.num q0 := by
        have := hfin x (List.mem_cons_self x xs)
        cases x <;> simp_all [JsNum.isFinite]
      obtain ⟨M, hM, hle, hall⟩ :=
        ih (max m q0) (fun y hy => hfin y (List.mem_cons_of_mem _ hy))
      refine ⟨M, ?_, le_trans (le_max_left m q0) hle, ?_⟩
      · simpa [jsMax] using hM
      · intro q hq
        rcases List.mem_cons.mp hq with h | h
        · cases h
          exact le_trans (le_max_right m q0) hle
        · exact hall q h

/-- `Math.max(...)` of a nonempty all-finite spread is the finite
maximum, bounding every element. -/
theorem jsMaxListNum (l : List (JsNum ℚ)) (hne : l ≠ [])
    (hfin : ∀ x ∈ l, x.isFinite = true) :
    ∃ M : ℚ, jsMaxList l = JsNum.num M ∧ ∀ q : ℚ, JsNum.num q ∈ l → q ≤ M := by
  cases l with
  | nil => exact absurd rfl hne
  | cons x xs =>
      obtain ⟨q0, rfl⟩ : ∃ q0, x = JsNum.num q0 := by
        have := hfin x (List.mem_cons_self x xs)
        cases x <;> simp_all [JsNum.isFinite]
      obtain ⟨M, hM, hle, hall⟩ :=
        jsMaxFoldNum xs q0 (fun y hy => hfin y (List.mem_cons_of_mem _ hy))
      refine ⟨M, ?_, ?_⟩
      · simpa [jsMaxList, jsMax] using hM
      · intro q hq
        rcases List.mem_cons.mp hq with h | h
        · cases h
          exact hle
        · exact hall q h

/-- Every element of the `maxVal` spread list of a finite-valued series
is finite. -/
theorem referralsSpreadFinite (series : List (String × JsNum ℚ × JsNum ℚ))
    (hfin : finiteVals series) :
    ∀ x ∈ (referralsDataM series).flatMap (fun d => [d.2.1, d.2.2, .num 0]),
      x.isFinite = true := by
  intro x hx
  simp only [referralsDataM, List.mem_flatMap, List.mem_map] at hx
  obtain ⟨d, ⟨e, he, rfl⟩, hmem⟩ := hx
  obtain ⟨⟨q1, hq1⟩, ⟨q2, hq2⟩⟩ :
      (∃ q, e.2.1 = JsNum.num q) ∧ ∃ q, e.2.2 = JsNum.num q := by
    have := hfin e he
    constructor
    · cases h : e.2.1 <;> simp_all [JsNum.isFinite]
    · cases h : e.2.2 <;> simp_all [JsNum.isFinite]
  simp only [List.mem_cons, List.mem_singleton] at hmem
  rcases hmem with rfl | rfl | rfl | h
  · simp [hq1, jsDiv, JsNum.isFinite]
  · simp [hq2, jsDiv, JsNum.isFinite]
  · simp [JsNum.isFinite]
  · exact absurd h (List.not_mem_nil x)

/-- The gridline step of the bar chart is one of the four candidates,
hence positive. -/
theorem referralsStepPos (series : List (String × JsNum ℚ × JsNum ℚ)) :
    0 < referralsStep series := by
  unfold referralsStep
  split <;> [norm_num; split <;> [norm_num; split <;> norm_num]]

/-- C4: for a nonempty series of finite values, `maxVal` is the finite
maximum (at least 0 because 0 is spread into the `Math.max`), the
gridline step is picked from 0.05/0.1/0.2/0.5 by the 0.2/0.5/1.0
thresholds on `maxVal`, and the y-axis maximum is a positive integer
multiple of the step that is at least `1.12 * maxVal`. -/
theorem referralsChart_axis_spec (series : List (String × JsNum ℚ × JsNum ℚ))
    (hne : series ≠ []) (hfin : finiteVals series) :
    ∃ M : ℚ, referralsMaxVal series = JsNum.num M ∧ 0 ≤ M ∧
      referralsStep series =
        (if M ≤ 1/5 then 1/20 else if M ≤ 1/2 then 1/10
          else if M ≤ 1 then 1/5 else 1/2) ∧
      ∃ k : ℕ, 1 ≤ k ∧
        referralsYMax series = JsNum.num (k * referralsStep series) ∧
        28/25 * M ≤ k * referralsStep series := by
  obtain ⟨d, rest, rfl⟩ : ∃ d rest, series = d :: rest := by
    cases series with
    | nil => exact absurd rfl hne
    | cons d rest => exact ⟨d, rest, rfl⟩
  set series := d :: rest
  have hspread := referralsSpreadFinite series hfin
  have hnil : (referralsDataM series).flatMap (fun d => [d.2.1, d.2.2, .num 0]) ≠ [] := by
    simp [referralsDataM, series]
  obtain ⟨M, hM, hall⟩ := jsMaxListNum _ hnil hspread
  have hM0 : 0 ≤ M := by
    refine hall 0 ?_
    simp [referralsDataM, series]
  have hMv : referralsMaxVal series = JsNum.num M := hM
  have hstep : referralsStep series =
      (if M ≤ 1/5 then 1/20 else if M ≤ 1/2 then 1/10
        else if M ≤ 1 then 1/5 else 1/2) := by
    unfold referralsStep
    rw [hMv]
    by_cases h1 : M ≤ 1/5 <;> by_cases h2 : M ≤ 1/2 <;> by_cases h3 : M ≤ 1 <;>
      simp [jsLe, h1, h2, h3]
  refine ⟨M, hMv, hM0, hstep, ?_⟩
  set s0 := referralsStep series with hs0
  have hs0pos : 0 < s0 := referralsStepPos series
  set c : ℤ := ⌈M * (28/25) / s0⌉ with hc
  have hc0 : 0 ≤ c := Int.ceil_nonneg (by positivity)
  have hymax : referralsYMax series = JsNum.num (max s0 (c * s0)) := by
    unfold referralsYMax
    rw [hMv, ← hs0]
    simp [jsMul, jsDiv, jsCeil, jsMax, ne_of_gt hs0pos, hc]
  by_cases hc1 : 1 ≤ c
  · refine ⟨c.toNat, ?_, ?_, ?_⟩
    · omega
    · rw [hymax]
      congr 1
      have hone : (1 : ℚ) ≤ (c : ℚ) := by exact_mod_cast hc1
      have hcs : s0 ≤ (c : ℚ) * s0 := by nlinarith
      rw [max_eq_right hcs]
      congr 1
      exact_mod_cast (Int.toNat_of_nonneg hc0).symm
    · have hceil : M * (28/25) / s0 ≤ (c : ℚ) := Int.le_ceil _
      have hle : M * (28/25) ≤ (c : ℚ) * s0 := by
        rw [div_le_iff₀ hs0pos] at hceil
        linarith
      calc 28/25 * M = M * (28/25) := by ring
        _ ≤ (c : ℚ) * s0 := hle
        _ = (c.toNat : ℚ) * s0 := by
            congr 1
            exact_mod_cast (Int.toNat_of_nonneg hc0).symm
  · have hceq : c = 0 := by omega
    refine ⟨1, le_refl 1, ?_, ?_⟩
    · rw [hymax, hceq]
      simp [max_eq_left (le_of_lt hs0pos)]
    · have hceil : M * (28/25) / s0 ≤ (c : ℚ) := Int.le_ceil _
      rw [hceq] at hceil
      have hnp : M * (28/25) ≤ 0 := by
        rw [div_le_iff₀ hs0pos] at hceil
        simpa using hceil
      push_cast
      nlinarith

/-- Witness for C4 on the spec's worked example: raw values 430000 and
200000 give `maxVal = 0.43` million, step `0.1`, axis max `0.5`. -/
theorem referralsChart_axis_spec_witness :
    (([("2023", JsNum.num 430000, JsNum.num 200000)] :
        List (String × JsNum ℚ × JsNum ℚ)) ≠ [] ∧
      finiteVals [("2023", JsNum.num 430000, JsNum.num 200000)]) ∧
    (∃ M : ℚ,
      referralsMaxVal [("2023", JsNum.num 430000, JsNum.num 200000)] = JsNum.num M ∧
      0 ≤ M ∧
      referralsStep [("2023", JsNum.num 430000, JsNum.num 200000)] =
        (if M ≤ 1/5 then 1/20 else if M ≤ 1/2 then 1/10
          else if M ≤ 1 then 1/5 else 1/2) ∧
      ∃ k : ℕ, 1 ≤ k ∧
        referralsYMax [("2023", JsNum.num 430000, JsNum.num 200000)] =
          JsNum.num (k * referralsStep [("2023", JsNum.num 430000, JsNum.num 200000)]) ∧
        28/25 * M ≤
          k * referralsStep [("2023", JsNum.num 430000, JsNum.num 200000)]) :=
  ⟨⟨by decide, by unfold finiteVals; decide⟩,
    referralsChart_axis_spec [("2023", JsNum.num 430000, JsNum.num 200000)]
      (by decide) (by unfold finiteVals; decide)⟩

/-! ## C9 — empty series still render axes and gridlines -/

/-- C9: on an empty series both renderers terminate (they are total
functions) and draw a valid empty chart: the bar chart has 2 gridlines,
2 axis lines and no rects other than the two fixed 14x14 legend
swatches; the sessions chart has its 10 fixed gridlines, 2 axis lines,
and no path or circle data marks. -/
theorem empty_series_valid_drawing :
    ((renderReferralsChart []).countP isGridLine = 2 ∧
     (renderReferralsChart []).countP isAxisLine = 2 ∧
     (renderReferralsChart []).filter isRectElem =
       [.rect (.num 340) (.num 20) (.num 14) (.num 14) "#D1D5DB",
        .rect (.num 510) (.num 20) (.num 14) (.num 14) "#141B8C"] ∧
     (renderReferralsChart []).countP isPathElem = 0 ∧
     (renderReferralsChart []).countP isCircleElem = 0) ∧
    ((renderSessionsChart []).countP isGridLine = 10 ∧
     (renderSessionsChart []).countP isAxisLine = 2 ∧
     (renderSessionsChart []).countP isPathElem = 0 ∧
     (renderSessionsChart []).countP isCircleElem = 0) := by
  set_option maxRecDepth 100000 in with_unfolding_all decide

/-! ## C7 — zero and missing values in the bar chart -/

/-- For a nonempty finite-valued series the computed y-axis maximum is a
positive finite number. -/
theorem referralsYMaxPos (series : List (String × JsNum ℚ × JsNum ℚ))
    (hne : series ≠ []) (hfin : finiteVals series) :
    ∃ Y : ℚ, referralsYMax series = JsNum.num Y ∧ 0 < Y := by
  obtain ⟨d, rest, rfl⟩ : ∃ d rest, series = d :: rest := by
    cases series with
    | nil => exact absurd rfl hne
    | cons d rest => exact ⟨d, rest, rfl⟩
  set series := d :: rest
  have hnil : (referralsDataM series).flatMap (fun d => [d.2.1, d.2.2, .num 0]) ≠ [] := by
    simp [referralsDataM, series]
  obtain ⟨M, hM, hall⟩ := jsMaxListNum _ hnil (referralsSpreadFinite series hfin)
  set s0 := referralsStep series with hs0
  have hs0pos : 0 < s0 := referralsStepPos series
  have hymax : referralsYMax series =
      JsNum.num (max s0 ((⌈M * (28/25) / s0⌉ : ℤ) * s0)) := by
    unfold referralsYMax
    rw [show referralsMaxVal series = JsNum.num M from hM, ← hs0]
    simp [jsMul, jsDiv, jsCeil, jsMax, ne_of_gt hs0pos]
  exact ⟨_, hymax, lt_of_lt_of_le hs0pos (le_max_left _ _)⟩

/-- For a nonempty finite-valued series the bar baseline `y0` is the
concrete pixel row 610 (`margin.top + innerH`). -/
theorem referralsBaseline (series : List (String × JsNum ℚ × JsNum ℚ))
    (hne : series ≠ []) (hfin : finiteVals series) :
    referralsYScale series (JsNum.num 0) = JsNum.num 610 := by
  obtain ⟨Y, hY, hYpos⟩ := referralsYMaxPos series hne hfin
  unfold referralsYScale
  rw [hY]
  simp only [jsDiv, if_neg (ne_of_gt hYpos)]
  norm_num [jsAdd, jsSub, jsNeg, jsMul]

/-- Both bar rects of period `i` occur in the rendered output, with the
`Math.max(0, y0 - yScale(value))` height of src/app.js lines 390/398. -/
theorem referralsBarsMem (series : List (String × JsNum ℚ × JsNum ℚ)) (i : ℕ)
    (d : String × JsNum ℚ × JsNum ℚ)
    (hget : (referralsDataM series).get? i = some d) :
    (∃ x w, SvgElem.rect x (referralsYScale series d.2.1) w
        (jsMax (.num 0) (jsSub (referralsY0 series) (referralsYScale series d.2.1)))
        "#D1D5DB" ∈ renderReferralsChart series) ∧
    (∃ x w, SvgElem.rect x (referralsYScale series d.2.2) w
        (jsMax (.num 0) (jsSub (referralsY0 series) (referralsYScale series d.2.2)))
        "#141B8C" ∈ renderReferralsChart series) := by
  have henum : (i, d) ∈ (referralsDataM series).enum := by
    rw [List.get?_eq_getElem?] at hget
    exact List.mk_mem_enum_iff_getElem?.mpr hget
  constructor
  · refine ⟨jsAdd (jsAdd (.num 80) (jsMul (.num (i : ℚ)) (referralsXBand series)))
      (jsDiv (jsSub (referralsXBand series)
        (jsMul (referralsXBand series) (.num (31/50)))) (.num 2)),
      jsDiv (jsSub (jsMul (referralsXBand series) (.num (31/50)))
        (jsMul (jsMul (referralsXBand series) (.num (31/50))) (.num (1/10)))) (.num 2),
      ?_⟩
    simp only [renderReferralsChart, List.mem_append]
    refine Or.inr ?_
    refine List.mem_flatMap.mpr ⟨(i, d), henum, ?_⟩
    exact List.mem_cons_self _ _
  · refine ⟨jsAdd (jsAdd (jsAdd (jsAdd (.num 80)
        (jsMul (.num (i : ℚ)) (referralsXBand series)))
      (jsDiv (jsSub (referralsXBand series)
        (jsMul (referralsXBand series) (.num (31/50)))) (.num 2)))
      (jsDiv (jsSub (jsMul (referralsXBand series) (.num (31/50)))
        (jsMul (jsMul (referralsXBand series) (.num (31/50))) (.num (1/10)))) (.num 2)))
      (jsMul (jsMul (referralsXBand series) (.num (31/50))) (.num (1/10))),
      jsDiv (jsSub (jsMul (referralsXBand series) (.num (31/50)))
        (jsMul (jsMul (referralsXBand series) (.num (31/50))) (.num (1/10)))) (.num 2),
      ?_⟩
    simp only [renderReferralsChart, List.mem_append]
    refine Or.inr ?_
    refine List.mem_flatMap.mpr ⟨(i, d), henum, ?_⟩
    exact List.mem_cons_of_mem _ (List.mem_cons_self _ _)

/-- C7 (amended): every period always contributes exactly two rects to
the output — a bar is never omitted — and, for a series whose values
are all present and finite, a period value of zero yields a drawn rect
of height exactly 0 sitting at the baseline `yScale 0`.  (A *missing*
value does not: see the counterexample, where the injected NaN leaves no
zero-height rect at all.) -/
theorem referralsChart_zero_value_bars :
    (∀ series : List (String × JsNum ℚ × JsNum ℚ),
      (renderReferralsChart series).countP isRectElem = 2 + 2 * series.length) ∧
    (∀ (series : List (String × JsNum ℚ × JsNum ℚ)) (i : ℕ) (yr : String)
      (r a : JsNum ℚ), finiteVals series → series.get? i = some (yr, r, a) →
      (r = JsNum.num 0 →
        ∃ x w, SvgElem.rect x (referralsYScale series (JsNum.num 0)) w (JsNum.num 0)
          "#D1D5DB" ∈ renderReferralsChart series) ∧
      (a = JsNum.num 0 →
        ∃ x w, SvgElem.rect x (referralsYScale series (JsNum.num 0)) w (JsNum.num 0)
          "#141B8C" ∈ renderReferralsChart series)) := by
  constructor
  · intro series
    have hgrid : (referralsGrid series).countP isRectElem = 0 := by
      refine List.countP_eq_zero.mpr ?_
      intro e he
      simp only [referralsGrid, List.mem_flatMap, List.mem_range, List.mem_cons,
        List.mem_singleton, List.not_mem_nil] at he
      obtain ⟨k, _, hk⟩ := he
      rcases hk with rfl | rfl | h
      · simp [isRectElem]
      · simp [isRectElem]
      · exact absurd h not_false
    have hbars : ∀ l : List (ℕ × (String × JsNum ℚ × JsNum ℚ)),
        (l.flatMap (fun id =>
          let xBand := referralsXBand series
          let groupX := jsAdd (.num 80) (jsMul (.num (id.1 : ℚ)) xBand)
          let barTotal := jsMul xBand (.num (31/50))
          let barGap := jsMul barTotal (.num (1/10))
          let barW := jsDiv (jsSub barTotal barGap) (.num 2)
          let xRef := jsAdd groupX (jsDiv (jsSub xBand barTotal) (.num 2))
          let xAcc := jsAdd (jsAdd xRef barW) barGap
          let yRef := referralsYScale series id.2.2.1
          let yAcc := referralsYScale series id.2.2.2
          [.rect xRef yRef barW
            (jsMax (.num 0) (jsSub (referralsY0 series) yRef)) "#D1D5DB",
           .rect xAcc yAcc barW
            (jsMax (.num 0) (jsSub (referralsY0 series) yAcc)) "#141B8C",
           .text (jsAdd groupX (jsDiv xBand (.num 2)))
            (jsAdd (referralsY0 series) (.num 46)) "middle" "#d1d5db"
            id.2.1])).countP isRectElem = 2 * l.length := by
      intro l
      induction l with
      | nil => rfl
      | cons x xs ih =>
          simp only [List.flatMap_cons, List.countP_append, ih, List.length_cons,
            List.countP_cons, List.countP_nil]
          norm_num [isRectElem]
          omega
    have hb : (referralsBars series).countP isRectElem =
        2 * ((referralsDataM series).enum).length :=
      hbars ((referralsDataM series).enum)
    simp only [renderReferralsChart, List.countP_append, hgrid, hb]
    have haxes : (referralsAxes series).countP isRectElem = 0 := rfl
    have hleg : referralsLegend.countP isRectElem = 2 := rfl
    rw [haxes, hleg]
    simp only [List.enum_length, referralsDataM, List.length_map]
  · intro series i yr r a hfin hget
    have hne : series ≠ [] := by
      intro h
      rw [h] at hget
      simp at hget
    have hdget : (referralsDataM series).get? i =
        some (yr, jsDiv r (.num 1000000), jsDiv a (.num 1000000)) := by
      rw [referralsDataM, List.get?_eq_getElem?, List.getElem?_map,
        ← List.get?_eq_getElem?, hget]
      rfl
    have hbase := referralsBaseline series hne hfin
    have hzero : jsDiv (JsNum.num 0) (JsNum.num 1000000) = JsNum.num (0 : ℚ) := by
      norm_num [jsDiv]
    have hmem := referralsBarsMem series i _ hdget
    have hh : jsMax (JsNum.num 0) (jsSub (referralsY0 series)
        (referralsYScale series (JsNum.num 0))) = JsNum.num 0 := by
      show jsMax (JsNum.num 0) (jsSub (referralsYScale series (JsNum.num 0))
        (referralsYScale series (JsNum.num 0))) = JsNum.num 0
      rw [hbase]
      norm_num [jsMax, jsSub, jsAdd, jsNeg]
    constructor
    · intro hr
      subst hr
      obtain ⟨x, w, hx⟩ := hmem.1
      rw [show (yr, jsDiv (JsNum.num 0) (.num 1000000), jsDiv a (.num 1000000)).2.1 =
        JsNum.num (0 : ℚ) from hzero, hh] at hx
      exact ⟨x, w, hx⟩
    · intro ha
      subst ha
      obtain ⟨x, w, hx⟩ := hmem.2
      rw [show (yr, jsDiv r (.num 1000000), jsDiv (JsNum.num 0) (.num 1000000)).2.2 =
        JsNum.num (0 : ℚ) from hzero, hh] at hx
      exact ⟨x, w, hx⟩

/-- Witness for C7 on `[("2021", 0, 500000)]`: four rects total and a
zero-height referrals rect at the baseline. -/
theorem referralsChart_zero_value_bars_witness :
    finiteVals [("2021", JsNum.num 0, JsNum.num 500000)] ∧
    (renderReferralsChart [("2021", JsNum.num 0, JsNum.num 500000)]).countP
      isRectElem = 4 ∧
    ∃ x w, SvgElem.rect x
      (referralsYScale [("2021", JsNum.num 0, JsNum.num 500000)] (JsNum.num 0)) w
      (JsNum.num 0) "#D1D5DB" ∈
        renderReferralsChart [("2021", JsNum.num 0, JsNum.num 500000)] :=
  ⟨by unfold finiteVals; decide,
   by simpa using
     referralsChart_zero_value_bars.1 [("2021", JsNum.num 0, JsNum.num 500000)],
   (referralsChart_zero_value_bars.2 [("2021", JsNum.num 0, JsNum.num 500000)] 0
     "2021" (JsNum.num 0) (JsNum.num 500000)
     (by unfold finiteVals; decide) rfl).1 rfl⟩

/-- Counterexample for C7 as stated: in the series
`[{year: "2021", referrals: undefined, accessed: 0}]` the period has a
missing `valueA` and a zero `valueB`, yet the rendered output contains
no rect of height 0 at all — the missing value propagates NaN through
`maxVal`, `yMax` and `yScale`, so both bars of the period get height
`NaN`, not 0. -/
theorem referralsChart_missing_value_no_zero_bar :
    (renderReferralsChart [("2021", JsNum.nan, JsNum.num 0)]).countP
      isZeroHeightRect = 0 := by
  set_option maxRecDepth 100000 in with_unfolding_all decide

/-! ## C8 — the sessions chart's fixed axis -/

/-- The x labels contribute no line elements. -/
theorem sessionsLabelsNoLines (series : List (String × JsNum ℚ)) :
    (sessionsLabels series).filter isLineElem = [] := by
  rw [List.filter_eq_nil_iff]
  intro e he
  simp only [sessionsLabels, List.mem_map] at he
  obtain ⟨x, _, rfl⟩ := he
  simp [isLineElem]

/-- The data marks (path and circles) contribute no line elements. -/
theorem sessionsMarksNoLines (series : List (String × JsNum ℚ)) :
    (sessionsMarks series).filter isLineElem = [] := by
  unfold sessionsMarks
  split
  · rfl
  · rw [List.filter_eq_nil_iff]
    intro e he
    rcases List.mem_cons.mp he with rfl | hm
    · simp [isLineElem]
    · simp only [List.mem_map] at hm
      obtain ⟨x, _, rfl⟩ := hm
      simp [isLineElem]

/-- C8 (amended): the sessions chart's vertical axis range and gridline
step are constants baked into the renderer — every line element (the
gridlines and the two axis lines) of the output is independent of the
input series, equal to the fixed grid over `yMin = 7.6`, `yMax = 8.5`,
`yStep = 0.1`; they are not parameters of the call, whose only data
input is the series itself. -/
theorem sessionsChart_fixed_axis (s1 s2 : List (String × JsNum ℚ)) :
    (renderSessionsChart s1).filter isLineElem =
      (renderSessionsChart s2).filter isLineElem ∧
    (renderSessionsChart s1).filter isLineElem =
      (sessionsGrid ++ sessionsAxes).filter isLineElem := by
  have h : ∀ s, (renderSessionsChart s).filter isLineElem =
      (sessionsGrid ++ sessionsAxes).filter isLineElem := by
    intro s
    simp only [renderSessionsChart, List.filter_cons, List.filter_append,
      sessionsLabelsNoLines, sessionsMarksNoLines, List.append_nil]
    simp [isLineElem]
  exact ⟨(h s1).trans (h s2).symm, h s1⟩

/-- Counterexample for C8 as stated: the series of this concrete call
carries no 7.6, 8.5 or 0.1 anywhere — the call supplies only the single
value 7.9 — yet the rendered chart still has exactly the 10 fixed
gridlines, including the top gridline at pixel row 40, which is
`yScale(8.5)`.  So the axis range and step are not supplied by the
caller; they are hard-coded inside the renderer. -/
theorem sessionsChart_axis_not_from_call :
    (∀ p ∈ ([("2021/22", JsNum.num (79/10))] : List (String × JsNum ℚ)),
      p.2 ≠ JsNum.num (76/10) ∧ p.2 ≠ JsNum.num (17/2) ∧ p.2 ≠ JsNum.num (1/10)) ∧
    (renderSessionsChart [("2021/22", JsNum.num (79/10))]).countP isGridLine = 10 ∧
    SvgElem.line (.num 80) (.num 970) (.num 40) (.num 40) "#d1d5db" 1 ∈
      renderSessionsChart [("2021/22", JsNum.num (79/10))] := by
  set_option maxRecDepth 100000 in with_unfolding_all decide

/-! ## C1 and C2 — the Bounds Fitter -/

/-- A min-scan that has reached `-Infinity` stays there (no projected
value compares below it). -/
theorem jsMinScanNegInf (v : ℝ × ℝ → ℝ) (ps : List (ℝ × ℝ)) :
    ps.foldl (fun m p => if jsLt (.num (v p)) m then .num (v p) else m) .negInf =
      .negInf := by
  induction ps with
  | nil => rfl
  | cons p ps ih => simpa [jsLt] using ih

/-- A min-scan that has reached `NaN` stays there. -/
theorem jsMinScanNan (v : ℝ × ℝ → ℝ) (ps : List (ℝ × ℝ)) :
    ps.foldl (fun m p => if jsLt (.num (v p)) m then .num (v p) else m) .nan =
      .nan := by
  induction ps with
  | nil => rfl
  | cons p ps ih => simpa [jsLt] using ih

/-- A min-scan started from a finite accumulator never exceeds it. -/
theorem jsMinScanLeAcc (v : ℝ × ℝ → ℝ) (ps : List (ℝ × ℝ)) :
    ∀ (a m : ℝ),
      ps.foldl (fun m p => if jsLt (.num (v p)) m then .num (v p) else m)
        (.num a) = .num m → m ≤ a := by
  induction ps with
  | nil =>
      intro a m h
      cases h
      exact le_refl _
  | cons p ps ih =>
      intro a m h
      simp only [List.foldl_cons, jsLt] at h
      by_cases hpa : v p < a
      · rw [if_pos (by simpa using hpa)] at h
        exact le_trans (ih (v p) m h) (le_of_lt hpa)
      · rw [if_neg (by simpa using hpa)] at h
        exact ih a m h

/-- The finite result of a min-scan is a lower bound of every scanned
value, whatever the start state. -/
theorem jsMinScanLe (v : ℝ × ℝ → ℝ) (ps : List (ℝ × ℝ)) :
    ∀ (st : JsNum ℝ) (m : ℝ),
      ps.foldl (fun m p => if jsLt (.num (v p)) m then .num (v p) else m) st =
        .num m → ∀ p ∈ ps, m ≤ v p := by
  induction ps with
  | nil =>
      intro st m _ p hp
      exact absurd hp (List.not_mem_nil p)
  | cons p0 ps ih =>
      intro st m h p hp
      simp only [List.foldl_cons] at h
      rcases List.mem_cons.mp hp with rfl | hmem
      · cases st with
        | num a =>
            by_cases hpa : v p < a
            · rw [show jsLt (JsNum.num (v p)) (.num a) = true by simpa [jsLt] using hpa,
                if_pos rfl] at h
              exact jsMinScanLeAcc v ps (v p) m h
            · rw [show jsLt (JsNum.num (v p)) (.num a) = false by simpa [jsLt] using hpa] at h
              simp only [Bool.false_eq_true, if_false] at h
              exact le_trans (jsMinScanLeAcc v ps a m h) (not_lt.mp hpa)
        | nan =>
            rw [show jsLt (JsNum.num (v p)) JsNum.nan = false from rfl] at h
            simp only [Bool.false_eq_true, if_false] at h
            exact absurd (jsMinScanNan v ps ▸ h) (by simp)
        | inf =>
            rw [show jsLt (JsNum.num (v p)) JsNum.inf = true from rfl, if_pos rfl] at h
            exact jsMinScanLeAcc v ps (v p) m h
        | negInf =>
            rw [show jsLt (JsNum.num (v p)) JsNum.negInf = false from rfl] at h
            simp only [Bool.false_eq_true, if_false] at h
            exact absurd (jsMinScanNegInf v ps ▸ h) (by simp)
      · exact ih _ m h p hmem

/-- A max-scan that has reached `+Infinity` stays there. -/
theorem jsMaxScanInf (v : ℝ × ℝ → ℝ) (ps : List (ℝ × ℝ)) :
    ps.foldl (fun m p => if jsLt m (.num (v p)) then .num (v p) else m) .inf =
      .inf := by
  induction ps with
  | nil => rfl
  | cons p ps ih => simpa [jsLt] using ih

/-- A max-scan that has reached `NaN` stays there. -/
theorem jsMaxScanNan (v : ℝ × ℝ → ℝ) (ps : List (ℝ × ℝ)) :
    ps.foldl (fun m p => if jsLt m (.num (v p)) then .num (v p) else m) .nan =
      .nan := by
  induction ps with
  | nil => rfl
  | cons p ps ih => simpa [jsLt] using ih

/-- A max-scan started from a finite accumulator never drops below it. -/
theorem jsMaxScanGeAcc (v : ℝ × ℝ → ℝ) (ps : List (ℝ × ℝ)) :
    ∀ (a m : ℝ),
      ps.foldl (fun m p => if jsLt m (.num (v p)) then .num (v p) else m)
        (.num a) = .num m → a ≤ m := by
  induction ps with
  | nil =>
      intro a m h
      cases h
      exact le_refl _
  | cons p ps ih =>
      intro a m h
      simp only [List.foldl_cons, jsLt] at h
      by_cases hpa : a < v p
      · rw [if_pos (by simpa using hpa)] at h
        exact le_trans (le_of_lt hpa) (ih (v p) m h)
      · rw [if_neg (by simpa using hpa)] at h
        exact ih a m h

/-- The finite result of a max-scan is an upper bound of every scanned
value, whatever the start state. -/
theorem jsMaxScanGe (v : ℝ × ℝ → ℝ) (ps : List (ℝ × ℝ)) :
    ∀ (st : JsNum ℝ) (m : ℝ),
      ps.foldl (fun m p => if jsLt m (.num (v p)) then .num (v p) else m) st =
        .num m → ∀ p ∈ ps, v p ≤ m := by
  induction ps with
  | nil =>
      intro st m _ p hp
      exact absurd hp (List.not_mem_nil p)
  | cons p0 ps ih =>
      intro st m h p hp
      simp only [List.foldl_cons] at h
      rcases List.mem_cons.mp hp with rfl | hmem
      · cases st with
        | num a =>
            by_cases hpa : a < v p
            · rw [show jsLt (JsNum.num a) (.num (v p)) = true by simpa [jsLt] using hpa,
                if_pos rfl] at h
              exact jsMaxScanGeAcc v ps (v p) m h
            · rw [show jsLt (JsNum.num a) (.num (v p)) = false by simpa [jsLt] using hpa] at h
              simp only [Bool.false_eq_true, if_false] at h
              exact le_trans (not_lt.mp hpa) (jsMaxScanGeAcc v ps a m h)
        | nan =>
            rw [show jsLt JsNum.nan (JsNum.num (v p)) = false from rfl] at h
            simp only [Bool.false_eq_true, if_false] at h
            exact absurd (jsMaxScanNan v ps ▸ h) (by simp)
        | inf =>
            rw [show jsLt JsNum.inf (JsNum.num (v p)) = false from rfl] at h
            simp only [Bool.false_eq_true, if_false] at h
            exact absurd (jsMaxScanInf v ps ▸ h) (by simp)
        | negInf =>
            rw [show jsLt JsNum.negInf (JsNum.num (v p)) = true from rfl, if_pos rfl] at h
            exact jsMaxScanGeAcc v ps (v p) m h
      · exact ih _ m h p hmem

/-- Each field of the four-bounds scan is the corresponding
one-dimensional min/max scan over the projected coordinates. -/
theorem scanComponents (ps : List (ℝ × ℝ)) :
    ∀ st : ScanBounds,
      (ps.foldl scanStep st).minX =
        ps.foldl (fun m p => if jsLt (.num ((mercatorProject p.1 p.2).1)) m
          then .num ((mercatorProject p.1 p.2).1) else m) st.minX ∧
      (ps.foldl scanStep st).maxX =
        ps.foldl (fun m p => if jsLt m (.num ((mercatorProject p.1 p.2).1))
          then .num ((mercatorProject p.1 p.2).1) else m) st.maxX ∧
      (ps.foldl scanStep st).minY =
        ps.foldl (fun m p => if jsLt (.num ((mercatorProject p.1 p.2).2)) m
          then .num ((mercatorProject p.1 p.2).2) else m) st.minY ∧
      (ps.foldl scanStep st).maxY =
        ps.foldl (fun m p => if jsLt m (.num ((mercatorProject p.1 p.2).2))
          then .num ((mercatorProject p.1 p.2).2) else m) st.maxY := by
  induction ps with
  | nil => exact fun st => ⟨rfl, rfl, rfl, rfl⟩
  | cons p ps ih =>
      intro st
      simp only [List.foldl_cons]
      exact ⟨(ih (scanStep st p)).1, (ih (scanStep st p)).2.1,
        (ih (scanStep st p)).2.2.1, (ih (scanStep st p)).2.2.2⟩

/-- C1: whenever the projected bounding box of the collection is finite
with positive width and height, the projection built by
`buildGeoProjection` with the map canvas `W = 1000`, `H = 680` and fill
ratio 0.96 sends every coordinate of every feature to a finite pixel
point inside the canvas and inside the symmetric padding margin:
`20 ≤ px ≤ 980` and `13.6 ≤ py ≤ 666.4`. -/
theorem buildGeoProjection_within_canvas (geo : List (Option (Geom ℝ)))
    (a b c d : ℝ)
    (hbb : projBounds geo = ⟨.num a, .num b, .num c, .num d⟩)
    (hx : a < b) (hy : c < d) :
    ∀ g ∈ geo, ∀ pt ∈ forEachCoordList g,
      ∃ px py : ℝ, buildGeoProjection geo 1000 680 pt = (.num px, .num py) ∧
        20 ≤ px ∧ px ≤ 980 ∧ 68/5 ≤ py ∧ py ≤ 3332/5 := by
  intro g hg pt hpt
  have hmem : pt ∈ geo.flatMap forEachCoordList := List.mem_flatMap.mpr ⟨g, hg, hpt⟩
  set ps := geo.flatMap forEachCoordList with hps
  set x := (mercatorProject pt.1 pt.2).1 with hxdef
  set y := (mercatorProject pt.1 pt.2).2 with hydef
  have hcomp := scanComponents ps
    { minX := .inf, maxX := .negInf, minY := .inf, maxY := .negInf }
  have hminX := hcomp.1
  have hmaxX := hcomp.2.1
  have hminY := hcomp.2.2.1
  have hmaxY := hcomp.2.2.2
  rw [show ps.foldl scanStep
      { minX := .inf, maxX := .negInf, minY := .inf, maxY := .negInf } =
      projBounds geo from rfl, hbb] at hminX hmaxX hminY hmaxY
  have hax : a ≤ x := jsMinScanLe _ ps _ a hminX.symm pt hmem
  have hxb : x ≤ b := jsMaxScanGe _ ps _ b hmaxX.symm pt hmem
  have hcy : c ≤ y := jsMinScanLe _ ps _ c hminY.symm pt hmem
  have hyd : y ≤ d := jsMaxScanGe _ ps _ d hmaxY.symm pt hmem
  have hd1 : b + -a ≠ 0 := by intro h; nlinarith
  have hd2 : d + -c ≠ 0 := by intro h; nlinarith
  have hdx : dxOf geo = .num (b + -a) := by
    unfold dxOf
    rw [hbb]
    rfl
  have hdy : dyOf geo = .num (d + -c) := by
    unfold dyOf
    rw [hbb]
    rfl
  set s : ℝ := 0.96 * min (1000 / (b + -a)) (680 / (d + -c)) with hsdef
  have hscale : scaleOf geo 1000 680 = .num s := by
    unfold scaleOf
    rw [hdx, hdy]
    simp [jsDiv, jsMin, jsMul, hd1, hd2]
  have htx : txOf geo 1000 680 =
      .num ((1000 + -((b + -a) * s)) / 2 + -(a * s)) := by
    unfold txOf
    rw [hdx, hscale, hbb]
    simp [jsMul, jsSub, jsAdd, jsNeg, jsDiv]
  have hty : tyOf geo 1000 680 =
      .num ((680 + -((d + -c) * s)) / 2 + d * s) := by
    unfold tyOf
    rw [hdy, hscale, hbb]
    simp [jsMul, jsSub, jsAdd, jsNeg, jsDiv]
  have hproj : buildGeoProjection geo 1000 680 pt =
      (.num (x * s + ((1000 + -((b + -a) * s)) / 2 + -(a * s))),
       .num (-y * s + ((680 + -((d + -c) * s)) / 2 + d * s))) := by
    unfold buildGeoProjection
    rw [hscale, htx, hty]
    rfl
  have hspos : 0 < s := by
    have h1 : 0 < 1000 / (b + -a) := by
      apply div_pos (by norm_num)
      nlinarith
    have h2 : 0 < 680 / (d + -c) := by
      apply div_pos (by norm_num)
      nlinarith
    have := lt_min h1 h2
    rw [hsdef]
    nlinarith
  have hwfit : (b + -a) * s ≤ 960 := by
    have hmle : min (1000 / (b + -a)) (680 / (d + -c)) ≤ 1000 / (b + -a) :=
      min_le_left _ _
    have hba : 0 < b + -a := by nlinarith
    have : (b + -a) * s ≤ (b + -a) * (0.96 * (1000 / (b + -a))) := by
      rw [hsdef]
      have := mul_le_mul_of_nonneg_left hmle (by norm_num : (0:ℝ) ≤ 0.96)
      nlinarith
    calc (b + -a) * s ≤ (b + -a) * (0.96 * (1000 / (b + -a))) := this
      _ = 960 := by
          field_simp
          norm_num
  have hhfit : (d + -c) * s ≤ 3264/5 := by
    have hmle : min (1000 / (b + -a)) (680 / (d + -c)) ≤ 680 / (d + -c) :=
      min_le_right _ _
    have hdc : 0 < d + -c := by nlinarith
    have : (d + -c) * s ≤ (d + -c) * (0.96 * (680 / (d + -c))) := by
      rw [hsdef]
      have := mul_le_mul_of_nonneg_left hmle (by norm_num : (0:ℝ) ≤ 0.96)
      nlinarith
    calc (d + -c) * s ≤ (d + -c) * (0.96 * (680 / (d + -c))) := this
      _ = 3264/5 := by
          field_simp
          norm_num
  refine ⟨_, _, hproj, ?_, ?_, ?_, ?_⟩
  · nlinarith [mul_nonneg (by linarith : (0:ℝ) ≤ x - a) hspos.le,
      mul_nonneg (by linarith : (0:ℝ) ≤ b - x) hspos.le]
  · nlinarith [mul_nonneg (by linarith : (0:ℝ) ≤ x - a) hspos.le,
      mul_nonneg (by linarith : (0:ℝ) ≤ b - x) hspos.le]
  · nlinarith [mul_nonneg (by linarith : (0:ℝ) ≤ y - c) hspos.le,
      mul_nonneg (by linarith : (0:ℝ) ≤ d - y) hspos.le]
  · nlinarith [mul_nonneg (by linarith : (0:ℝ) ≤ y - c) hspos.le,
      mul_nonneg (by linarith : (0:ℝ) ≤ d - y) hspos.le]

/-- The origin projects to the planar origin: `tan(π/4) = 1`, `log 1 = 0`. -/
theorem mercatorOrigin : mercatorProject 0 0 = (0, 0) := by
  unfold mercatorProject
  norm_num [Real.tan_pi_div_four, Real.log_one]

/-- Witness for C1 on a one-feature collection holding the two corners
`(0°E, 0°N)` and `(90°E, 45°N)`: its projected bounding box is finite
with positive extents, and the projected pixel of `(0, 0)` lands inside
the padded canvas. -/
theorem buildGeoProjection_within_canvas_witness :
    (projBounds [some (Geom.polygon [some [((0:ℝ), (0:ℝ)), (90, 45)]])] =
      { minX := .num 0, maxX := .num (90 * Real.pi / 180), minY := .num 0,
        maxY := .num (Real.log (Real.tan (Real.pi / 4 + 45 * Real.pi / 180 / 2))) } ∧
      (0:ℝ) < 90 * Real.pi / 180 ∧
      (0:ℝ) < Real.log (Real.tan (Real.pi / 4 + 45 * Real.pi / 180 / 2))) ∧
    (∃ px py : ℝ,
      buildGeoProjection [some (Geom.polygon [some [((0:ℝ), (0:ℝ)), (90, 45)]])]
        1000 680 (0, 0) = (.num px, .num py) ∧
      20 ≤ px ∧ px ≤ 980 ∧ 68/5 ≤ py ∧ py ≤ 3332/5) := by
  have hpi := Real.pi_pos
  have h90 : (0:ℝ) < 90 * Real.pi / 180 := by positivity
  have hangle : Real.pi / 4 + 45 * Real.pi / 180 / 2 = 3 * Real.pi / 8 := by ring
  have htan : 1 < Real.tan (Real.pi / 4 + 45 * Real.pi / 180 / 2) := by
    rw [hangle]
    rw [show (1:ℝ) = Real.tan (Real.pi / 4) from Real.tan_pi_div_four.symm]
    apply Real.tan_lt_tan_of_nonneg_of_lt_pi_div_two
    · positivity
    · linarith
    · linarith
  have hlog : (0:ℝ) < Real.log (Real.tan (Real.pi / 4 + 45 * Real.pi / 180 / 2)) :=
    Real.log_pos htan
  have hm2 : mercatorProject 90 45 =
      (90 * Real.pi / 180,
        Real.log (Real.tan (Real.pi / 4 + 45 * Real.pi / 180 / 2))) := rfl
  have hbbW : projBounds [some (Geom.polygon [some [((0:ℝ), (0:ℝ)), (90, 45)]])] =
      { minX := .num 0, maxX := .num (90 * Real.pi / 180), minY := .num 0,
        maxY := .num (Real.log (Real.tan (Real.pi / 4 + 45 * Real.pi / 180 / 2))) } := by
    have hco : ([some (Geom.polygon [some [((0:ℝ), (0:ℝ)), (90, 45)]])] :
        List (Option (Geom ℝ))).flatMap forEachCoordList =
        [((0:ℝ), (0:ℝ)), (90, 45)] := by
      simp [forEachCoordList]
    unfold projBounds
    rw [hco, List.foldl_cons, List.foldl_cons, List.foldl_nil]
    have hs1 : scanStep
        { minX := .inf, maxX := .negInf, minY := .inf, maxY := .negInf }
        ((0:ℝ), (0:ℝ)) =
        { minX := .num 0, maxX := .num 0, minY := .num 0, maxY := .num 0 } := by
      simp [scanStep, mercatorOrigin, jsLt]
    rw [hs1]
    simp [scanStep, hm2, jsLt, h90, hlog, not_lt.mpr h90.le, not_lt.mpr hlog.le]
  exact ⟨⟨hbbW, h90, hlog⟩,
    buildGeoProjection_within_canvas
      [some (Geom.polygon [some [((0:ℝ), (0:ℝ)), (90, 45)]])]
      0 (90 * Real.pi / 180) 0
      (Real.log (Real.tan (Real.pi / 4 + 45 * Real.pi / 180 / 2)))
      hbbW h90 hlog
      (some (Geom.polygon [some [((0:ℝ), (0:ℝ)), (90, 45)]]))
      (by simp)
      (0, 0)
      (by simp [forEachCoordList])⟩

/-- C2 (the code, evaluated at the failing input): for a boundary
collection whose only feature is the single point `(0°E, 0°N)` — a
degenerate bounding box with `dx = dy = 0` — `buildGeoProjection`
substitutes no minimum extent: the scale it computes is
`0.96 * Math.min(1000/0, 680/0) = +Infinity`, and the projected pixel of
the point itself is `(NaN, NaN)`.  Non-finite values flow straight into
the drawing coordinates, contradicting §4.2/§7(b) of the spec. -/
theorem buildGeoProjection_degenerate_nonfinite :
    scaleOf [some (Geom.polygon [some [((0:ℝ), (0:ℝ))]])] 1000 680 = .inf ∧
    buildGeoProjection [some (Geom.polygon [some [((0:ℝ), (0:ℝ))]])] 1000 680
      (0, 0) = (.nan, .nan) := by
  have hbb0 : projBounds [some (Geom.polygon [some [((0:ℝ), (0:ℝ))]])] =
      { minX := .num 0, maxX := .num 0, minY := .num 0, maxY := .num 0 } := by
    have hco : ([some (Geom.polygon [some [((0:ℝ), (0:ℝ))]])] :
        List (Option (Geom ℝ))).flatMap forEachCoordList = [((0:ℝ), (0:ℝ))] := by
      simp [forEachCoordList]
    unfold projBounds
    rw [hco, List.foldl_cons, List.foldl_nil]
    simp [scanStep, mercatorOrigin, jsLt]
  have hdx0 : dxOf [some (Geom.polygon [some [((0:ℝ), (0:ℝ))]])] = .num 0 := by
    unfold dxOf
    rw [hbb0]
    norm_num [jsSub, jsAdd, jsNeg]
  have hdy0 : dyOf [some (Geom.polygon [some [((0:ℝ), (0:ℝ))]])] = .num 0 := by
    unfold dyOf
    rw [hbb0]
    norm_num [jsSub, jsAdd, jsNeg]
  have hscale : scaleOf [some (Geom.polygon [some [((0:ℝ), (0:ℝ))]])] 1000 680 =
      .inf := by
    unfold scaleOf
    rw [hdx0, hdy0]
    norm_num [jsDiv, jsMin, jsMul]
  refine ⟨hscale, ?_⟩
  have htx : txOf [some (Geom.polygon [some [((0:ℝ), (0:ℝ))]])] 1000 680 = .nan := by
    unfold txOf
    rw [hdx0, hscale, hbb0]
    norm_num [jsMul, jsSub, jsAdd, jsNeg, jsDiv]
  have hty : tyOf [some (Geom.polygon [some [((0:ℝ), (0:ℝ))]])] 1000 680 = .nan := by
    unfold tyOf
    rw [hdy0, hscale, hbb0]
    norm_num [jsMul, jsSub, jsAdd, jsNeg, jsDiv]
  unfold buildGeoProjection
  rw [hscale, htx, hty]
  norm_num [mercatorOrigin, jsMul, jsAdd, jsNeg]
